import Mathlib

/-!
Verification of the dist-keras model-synchronization design.

The repository ships a consumer notebook (`examples/workflow.ipynb`) that
drives four training strategies (SingleTrainer, EASGD, AsynchronousEASGD,
DOWNPOUR) of a model-synchronization Coordinator.  The Coordinator itself
is not part of the shipped sources, so its data model and operations are
modelled here from the design document; the notebook-level code
(`evaluate`, the worker-count derivation) is embedded directly from the
notebook cells.

Parameter vectors are modelled as lists of rationals: the design speaks of
an ordered sequence of numeric weights with exact merge arithmetic.
-/

namespace DistKeras

/-- Modelled from the spec: a ParameterVector is an ordered sequence of
numeric weights; the Coordinator sources are missing from the repository. -/
abbrev ParameterVector := List ℚ

/-- Modelled from the spec: a ModelSnapshot pairs a parameter vector with a
monotonically increasing version counter; the Coordinator sources are
missing from the repository. -/
structure ModelSnapshot where
  parameters : ParameterVector
  version : ℕ
deriving DecidableEq

/-- Modelled from the spec: an UpdateMessage carries the worker id, the
version the update was computed against, and the delta (or gradient, or
full local parameters); the Coordinator sources are missing from the
repository. -/
structure UpdateMessage where
  workerId : ℕ
  baseVersion : ℕ
  delta : ParameterVector
deriving DecidableEq

/-- Modelled from the spec: the four interchangeable strategy variants
behind the one Coordinator interface. -/
inductive Strategy
  | single
  | easgdSync
  | easgdAsync
  | downpour
deriving DecidableEq

/-- Modelled from the spec: the immutable TrainingConfig fields the merge
policies consume. -/
structure TrainingConfig where
  strategy : Strategy
  numWorkers : ℕ
  learningRate : ℚ
  rho : ℚ

/-- Modelled from the spec: the Coordinator-owned state — the authoritative
parameters and version, plus the explicit per-round reporter tracking
(worker id and submitted delta) required by the synchronous round barrier. -/
structure CoordState where
  parameters : ParameterVector
  version : ℕ
  reporters : List (ℕ × ParameterVector)
deriving DecidableEq

/-- Modelled from the spec: the ApplyResult returned by `submit` — the
update was applied (with the new version), buffered for the round barrier,
or rejected. -/
inductive ApplyResult
  | applied (newVersion : ℕ)
  | buffered
  | rejected
deriving DecidableEq

/-- Componentwise sum of two parameter vectors. -/
def vadd (xs ys : ParameterVector) : ParameterVector :=
  List.zipWith (· + ·) xs ys

/-- Componentwise difference of two parameter vectors. -/
def vsub (xs ys : ParameterVector) : ParameterVector :=
  List.zipWith (· - ·) xs ys

/-- Scale every weight of a parameter vector by a constant. -/
def vscale (c : ℚ) (xs : ParameterVector) : ParameterVector :=
  xs.map (fun x => c * x)

/-- Sum a list of parameter vectors of dimensionality `dim`. -/
def vsum (dim : ℕ) (vs : List ParameterVector) : ParameterVector :=
  vs.foldl vadd (List.replicate dim 0)

/-- Componentwise average of a list of parameter vectors. -/
def vaverage (dim : ℕ) (vs : List ParameterVector) : ParameterVector :=
  vscale (1 / (vs.length : ℚ)) (vsum dim vs)

/-- Modelled from the spec: `publish` returns the current authoritative
snapshot; the Coordinator sources are missing from the repository. -/
def publish (s : CoordState) : ModelSnapshot :=
  ⟨s.parameters, s.version⟩

/-- Modelled from the spec: `submit` applies a worker's contribution under
the active strategy; the Coordinator sources are missing from the
repository.  A delta of mismatched dimensionality is rejected with the
state left untouched.  SingleTrainer applies the update directly (the full
local parameters replace the global model); DOWNPOUR applies
`parameters -= learningRate * gradient` immediately with no staleness
check; asynchronous EASGD applies the elastic-pull
`center += rho * learningRate * delta` immediately on receipt; synchronous
EASGD records one delta per worker per round and commits
`center += rho * learningRate * average(deltas)` only once every one of the
`numWorkers` workers has reported. -/
def submit (cfg : TrainingConfig) (s : CoordState) (msg : UpdateMessage) :
    CoordState × ApplyResult :=
  if msg.delta.length ≠ s.parameters.length then
    (s, .rejected)
  else
    match cfg.strategy with
    | .single =>
        (⟨msg.delta, s.version + 1, s.reporters⟩, .applied (s.version + 1))
    | .downpour =>
        (⟨vsub s.parameters (vscale cfg.learningRate msg.delta),
          s.version + 1, s.reporters⟩, .applied (s.version + 1))
    | .easgdAsync =>
        (⟨vadd s.parameters (vscale (cfg.rho * cfg.learningRate) msg.delta),
          s.version + 1, s.reporters⟩, .applied (s.version + 1))
    | .easgdSync =>
        if msg.workerId ∈ s.reporters.map Prod.fst then
          (s, .buffered)
        else
          let reporters₁ := s.reporters ++ [(msg.workerId, msg.delta)]
          if reporters₁.length = cfg.numWorkers then
            (⟨vadd s.parameters
                (vscale (cfg.rho * cfg.learningRate)
                  (vaverage s.parameters.length (reporters₁.map Prod.snd))),
              s.version + 1, []⟩, .applied (s.version + 1))
          else
            (⟨s.parameters, s.version, reporters₁⟩, .buffered)

/-- Run a sequence of `submit` calls from a starting state, in receipt
order. -/
def runCoord (cfg : TrainingConfig) (s : CoordState)
    (msgs : List UpdateMessage) : CoordState :=
  msgs.foldl (fun t m => (submit cfg t m).1) s

theorem runCoord_nil (cfg : TrainingConfig) (s : CoordState) :
    runCoord cfg s [] = s := rfl

theorem runCoord_cons (cfg : TrainingConfig) (s : CoordState)
    (m : UpdateMessage) (ms : List UpdateMessage) :
    runCoord cfg s (m :: ms) = runCoord cfg (submit cfg s m).1 ms := rfl

theorem submit_version_mono (cfg : TrainingConfig) (s : CoordState)
    (msg : UpdateMessage) : s.version ≤ ((submit cfg s msg).1).version := by
  unfold submit
  split
  · exact Nat.le_refl _
  · cases cfg.strategy <;> simp only
    · exact Nat.le_succ _
    case easgdSync =>
      split
      · exact Nat.le_refl _
      · split
        · exact Nat.le_succ _
        · exact Nat.le_refl _
    · exact Nat.le_succ _
    · exact Nat.le_succ _

theorem submit_version_eq_imp_params_eq (cfg : TrainingConfig)
    (s : CoordState) (msg : UpdateMessage)
    (h : ((submit cfg s msg).1).version = s.version) :
    ((submit cfg s msg).1).parameters = s.parameters := by
  revert h
  unfold submit
  split
  · intro _; rfl
  · cases cfg.strategy <;> simp only
    · intro h; exact absurd h (Nat.succ_ne_self _)
    case easgdSync =>
      split
      · intro _; rfl
      · split
        · intro h; exact absurd h (Nat.succ_ne_self _)
        · intro _; rfl
    · intro h; exact absurd h (Nat.succ_ne_self _)
    · intro h; exact absurd h (Nat.succ_ne_self _)

theorem runCoord_version_mono (cfg : TrainingConfig) (s : CoordState)
    (msgs : List UpdateMessage) :
    s.version ≤ (runCoord cfg s msgs).version := by
  induction msgs generalizing s with
  | nil => exact Nat.le_refl _
  | cons m ms ih =>
      rw [runCoord_cons]
      exact Nat.le_trans (submit_version_mono cfg s m) (ih _)

theorem runCoord_version_eq_imp_params_eq (cfg : TrainingConfig)
    (s : CoordState) (msgs : List UpdateMessage)
    (h : (runCoord cfg s msgs).version = s.version) :
    (runCoord cfg s msgs).parameters = s.parameters := by
  induction msgs generalizing s with
  | nil => rfl
  | cons m ms ih =>
      rw [runCoord_cons] at h ⊢
      have h₁ : ((submit cfg s m).1).version = s.version :=
        Nat.le_antisymm (h ▸ runCoord_version_mono cfg (submit cfg s m).1 ms)
          (submit_version_mono cfg s m)
      have h₂ := submit_version_eq_imp_params_eq cfg s m h₁
      rw [ih _ (h.trans h₁.symm), h₂]

/-- A sample synchronous-EASGD configuration with a two-worker cohort. -/
def cfgSync2 : TrainingConfig := ⟨Strategy.easgdSync, 2, 1, 1⟩

/-- A sample DOWNPOUR configuration. -/
def cfgDown : TrainingConfig := ⟨Strategy.downpour, 3, 1/2, 0⟩

/-- A sample asynchronous-EASGD configuration. -/
def cfgAsync : TrainingConfig := ⟨Strategy.easgdAsync, 3, 1/2, 2⟩

/-- A sample Coordinator state with two weights at version 5 and no
reporters pending. -/
def s0 : CoordState := ⟨[1, 2], 5, []⟩

/-- Claim C1: for every sequence of submit calls applied to the
Coordinator, the published version is non-decreasing, strictly increases by
exactly one on each successfully applied update, and any two published
snapshots along a run carrying the same version have identical parameter
vectors. -/
theorem coordinator_version_invariants (cfg : TrainingConfig) :
    (∀ s msg, (publish s).version ≤ (publish (submit cfg s msg).1).version) ∧
    (∀ s msg v, (submit cfg s msg).2 = ApplyResult.applied v →
      (publish (submit cfg s msg).1).version = (publish s).version + 1) ∧
    (∀ s msgs₁ msgs₂,
      (publish (runCoord cfg (runCoord cfg s msgs₁) msgs₂)).version =
        (publish (runCoord cfg s msgs₁)).version →
      (publish (runCoord cfg (runCoord cfg s msgs₁) msgs₂)).parameters =
        (publish (runCoord cfg s msgs₁)).parameters) := by
  refine ⟨fun s msg => submit_version_mono cfg s msg,
    fun s msg v h => ?_,
    fun s msgs₁ msgs₂ h => runCoord_version_eq_imp_params_eq cfg _ msgs₂ h⟩
  revert h
  unfold submit publish
  split
  · intro h; exact ApplyResult.noConfusion h
  · cases cfg.strategy <;> simp only
    · intro _; trivial
    case easgdSync =>
      split
      · intro h; exact ApplyResult.noConfusion h
      · split
        · intro _; trivial
        · intro h; exact ApplyResult.noConfusion h
    · intro _; trivial
    · intro _; trivial

theorem coordinator_version_invariants_witness :
    (publish (runCoord cfgSync2 (runCoord cfgSync2 s0 []) [⟨0, 0, [3, 3]⟩])).parameters =
      (publish (runCoord cfgSync2 s0 [])).parameters :=
  (coordinator_version_invariants cfgSync2).2.2 s0 [] [⟨0, 0, [3, 3]⟩] (by decide)

/-- Claim C3: under DOWNPOUR, every gradient-carrying UpdateMessage of
matching dimensionality is applied on receipt whatever its baseVersion (no
staleness rejection), and the resulting parameters are exactly the prior
parameters minus learningRate times the gradient. -/
theorem downpour_applies_any_staleness (cfg : TrainingConfig)
    (hstrat : cfg.strategy = Strategy.downpour) (s : CoordState)
    (msg : UpdateMessage) (hdim : msg.delta.length = s.parameters.length) :
    (submit cfg s msg).2 = ApplyResult.applied (s.version + 1) ∧
    (publish (submit cfg s msg).1).parameters =
      vsub s.parameters (vscale cfg.learningRate msg.delta) := by
  unfold submit publish
  rw [hstrat]
  simp [hdim]

theorem downpour_applies_any_staleness_witness :
    (submit cfgDown s0 ⟨0, 0, [2, 2]⟩).2 = ApplyResult.applied (s0.version + 1) ∧
    (publish (submit cfgDown s0 ⟨0, 0, [2, 2]⟩).1).parameters =
      vsub s0.parameters (vscale cfgDown.learningRate [2, 2]) :=
  downpour_applies_any_staleness cfgDown rfl s0 ⟨0, 0, [2, 2]⟩ rfl

/-- Claim C4: under asynchronous EASGD, every valid UpdateMessage is
applied to the center immediately on receipt — whatever the round state and
whatever its baseVersion, the submission is accepted (never rejected for
staleness) and the center moves by rho times learningRate times the
submitted delta. -/
theorem async_easgd_applies_immediately (cfg : TrainingConfig)
    (hstrat : cfg.strategy = Strategy.easgdAsync) (s : CoordState)
    (msg : UpdateMessage) (hdim : msg.delta.length = s.parameters.length) :
    (submit cfg s msg).2 = ApplyResult.applied (s.version + 1) ∧
    (publish (submit cfg s msg).1).parameters =
      vadd s.parameters (vscale (cfg.rho * cfg.learningRate) msg.delta) := by
  unfold submit publish
  rw [hstrat]
  simp [hdim]

theorem async_easgd_applies_immediately_witness :
    (submit cfgAsync s0 ⟨1, 0, [4, 4]⟩).2 = ApplyResult.applied (s0.version + 1) ∧
    (publish (submit cfgAsync s0 ⟨1, 0, [4, 4]⟩).1).parameters =
      vadd s0.parameters (vscale (cfgAsync.rho * cfgAsync.learningRate) [4, 4]) :=
  async_easgd_applies_immediately cfgAsync rfl s0 ⟨1, 0, [4, 4]⟩ rfl

/-- Claim C5: a submit whose parameter vector has mismatched dimensionality
is rejected with the Coordinator state exactly unchanged (no partial
write), and any rejected submit leaves the state exactly unchanged. -/
theorem submit_rejects_mismatch_atomically (cfg : TrainingConfig)
    (s : CoordState) (msg : UpdateMessage) :
    (msg.delta.length ≠ s.parameters.length →
      submit cfg s msg = (s, ApplyResult.rejected)) ∧
    ((submit cfg s msg).2 = ApplyResult.rejected → (submit cfg s msg).1 = s) := by
  constructor
  · intro h
    unfold submit
    rw [if_pos h]
  · unfold submit
    split
    · intro _; rfl
    · cases cfg.strategy <;> simp only
      · intro h; exact ApplyResult.noConfusion h
      case easgdSync =>
        split
        · intro _; rfl
        · split
          · intro h; exact ApplyResult.noConfusion h
          · intro h; exact ApplyResult.noConfusion h
      · intro h; exact ApplyResult.noConfusion h
      · intro h; exact ApplyResult.noConfusion h

theorem submit_rejects_mismatch_atomically_witness :
    submit cfgDown s0 ⟨0, 0, [1]⟩ = (s0, ApplyResult.rejected) :=
  (submit_rejects_mismatch_atomically cfgDown s0 ⟨0, 0, [1]⟩).1 (by decide)

/-- A sample synchronous-EASGD configuration with a three-worker cohort. -/
def cfgSync3 : TrainingConfig := ⟨Strategy.easgdSync, 3, 1/2, 2⟩

/-- Claim C2: in synchronous EASGD with a three-worker cohort, updates from
only two distinct workers leave the center parameters and version
unchanged; the third worker's update triggers exactly one version
increment, setting the center to the old center plus rho times learningRate
times the average of the three submitted deltas. -/
theorem sync_easgd_round_barrier (cfg : TrainingConfig)
    (hstrat : cfg.strategy = Strategy.easgdSync) (hn : cfg.numWorkers = 3)
    (s : CoordState) (hrep : s.reporters = [])
    (w₁ w₂ w₃ b₁ b₂ b₃ : ℕ) (d₁ d₂ d₃ : ParameterVector)
    (h₁ : d₁.length = s.parameters.length)
    (h₂ : d₂.length = s.parameters.length)
    (h₃ : d₃.length = s.parameters.length)
    (hw₁₂ : w₁ ≠ w₂) (hw₁₃ : w₁ ≠ w₃) (hw₂₃ : w₂ ≠ w₃) :
    (publish (runCoord cfg s [⟨w₁, b₁, d₁⟩, ⟨w₂, b₂, d₂⟩])).version =
      (publish s).version ∧
    (publish (runCoord cfg s [⟨w₁, b₁, d₁⟩, ⟨w₂, b₂, d₂⟩])).parameters =
      (publish s).parameters ∧
    (submit cfg (runCoord cfg s [⟨w₁, b₁, d₁⟩, ⟨w₂, b₂, d₂⟩]) ⟨w₃, b₃, d₃⟩).2 =
      ApplyResult.applied ((publish s).version + 1) ∧
    (publish (submit cfg (runCoord cfg s [⟨w₁, b₁, d₁⟩, ⟨w₂, b₂, d₂⟩])
        ⟨w₃, b₃, d₃⟩).1).version = (publish s).version + 1 ∧
    (publish (submit cfg (runCoord cfg s [⟨w₁, b₁, d₁⟩, ⟨w₂, b₂, d₂⟩])
        ⟨w₃, b₃, d₃⟩).1).parameters =
      vadd s.parameters (vscale (cfg.rho * cfg.learningRate)
        (vaverage s.parameters.length [d₁, d₂, d₃])) := by
  have e₁ : submit cfg s ⟨w₁, b₁, d₁⟩ =
      (⟨s.parameters, s.version, [(w₁, d₁)]⟩, ApplyResult.buffered) := by
    unfold submit
    rw [hstrat]
    simp [hrep, h₁, hn]
  have e₂ : submit cfg ⟨s.parameters, s.version, [(w₁, d₁)]⟩ ⟨w₂, b₂, d₂⟩ =
      (⟨s.parameters, s.version, [(w₁, d₁), (w₂, d₂)]⟩,
        ApplyResult.buffered) := by
    unfold submit
    rw [hstrat]
    simp [h₂, hn, Ne.symm hw₁₂]
  have e₃ : submit cfg ⟨s.parameters, s.version, [(w₁, d₁), (w₂, d₂)]⟩
      ⟨w₃, b₃, d₃⟩ =
      (⟨vadd s.parameters (vscale (cfg.rho * cfg.learningRate)
          (vaverage s.parameters.length [d₁, d₂, d₃])), s.version + 1, []⟩,
        ApplyResult.applied (s.version + 1)) := by
    unfold submit
    rw [hstrat]
    simp [h₃, hn, Ne.symm hw₁₃, Ne.symm hw₂₃]
  simp only [runCoord_cons, runCoord_nil, e₁, e₂, e₃, publish]
  exact ⟨trivial, trivial, trivial, trivial, trivial⟩

theorem sync_easgd_round_barrier_witness :
    (publish (runCoord cfgSync3 s0 [⟨0, 0, [1, 0]⟩, ⟨1, 0, [0, 1]⟩])).version =
      (publish s0).version ∧
    (publish (runCoord cfgSync3 s0 [⟨0, 0, [1, 0]⟩, ⟨1, 0, [0, 1]⟩])).parameters =
      (publish s0).parameters ∧
    (submit cfgSync3 (runCoord cfgSync3 s0 [⟨0, 0, [1, 0]⟩, ⟨1, 0, [0, 1]⟩])
        ⟨2, 0, [2, 2]⟩).2 = ApplyResult.applied ((publish s0).version + 1) ∧
    (publish (submit cfgSync3 (runCoord cfgSync3 s0 [⟨0, 0, [1, 0]⟩, ⟨1, 0, [0, 1]⟩])
        ⟨2, 0, [2, 2]⟩).1).version = (publish s0).version + 1 ∧
    (publish (submit cfgSync3 (runCoord cfgSync3 s0 [⟨0, 0, [1, 0]⟩, ⟨1, 0, [0, 1]⟩])
        ⟨2, 0, [2, 2]⟩).1).parameters =
      vadd s0.parameters (vscale (cfgSync3.rho * cfgSync3.learningRate)
        (vaverage s0.parameters.length [[1, 0], [0, 1], [2, 2]])) :=
  sync_easgd_round_barrier cfgSync3 rfl rfl s0 rfl 0 1 2 0 0 0
    [1, 0] [0, 1] [2, 2] rfl rfl rfl (by decide) (by decide) (by decide)

/-- Split a list into consecutive batches of size `b`; the fuel argument
bounds the recursion by the list length. -/
def chunkAux (b : ℕ) : ℕ → List α → List (List α)
  | 0, _ => []
  | _, [] => []
  | fuel + 1, x :: xs => (x :: xs).take b :: chunkAux b fuel ((x :: xs).drop b)

/-- Split the training data into consecutive batches of size `b`, in data
order. -/
def chunk (b : ℕ) (data : List α) : List (List α) :=
  chunkAux b data.length data

/-- Modelled from the spec: one SGD step of the single-worker baseline —
the Gradient Computer `g` is the external pure capability
`compute(parameters, batch) -> gradient`; the Trainer sources are missing
from the repository. -/
def sgdStep {δ : Type} (g : ParameterVector → List δ → ParameterVector)
    (lr : ℚ) (θ : ParameterVector) (batch : List δ) : ParameterVector :=
  vsub θ (vscale lr (g θ batch))

/-- Modelled from the spec: `SingleTrainer.train` — one worker, updates
applied directly: fold the SGD step over the batches of the training data
in data order; the Trainer sources are missing from the repository. -/
def singleTrainerTrain {δ : Type}
    (g : ParameterVector → List δ → ParameterVector) (lr : ℚ) (b : ℕ)
    (data : List δ) (θ₀ : ParameterVector) : ParameterVector :=
  (chunk b data).foldl (sgdStep g lr) θ₀

/-- Modelled from the spec: the small-step execution of the single-worker
training loop — each step consumes the next batch and applies the SGD
update; any run of `SingleTrainer.train` is a sequence of these steps. -/
inductive TrainStep {δ : Type}
    (g : ParameterVector → List δ → ParameterVector) (lr : ℚ) :
    List (List δ) × ParameterVector → List (List δ) × ParameterVector → Prop
  | step (batch : List δ) (rest : List (List δ)) (θ : ParameterVector) :
      TrainStep g lr (batch :: rest, θ) (rest, sgdStep g lr θ batch)

theorem trainRun_final {δ : Type}
    (g : ParameterVector → List δ → ParameterVector) (lr : ℚ)
    (bs : List (List δ)) (θ θf : ParameterVector)
    (h : Relation.ReflTransGen (TrainStep g lr) (bs, θ) ([], θf)) :
    θf = bs.foldl (sgdStep g lr) θ := by
  induction bs generalizing θ with
  | nil =>
      rcases Relation.ReflTransGen.cases_head h with heq | ⟨mid, hstep, _⟩
      · exact congrArg Prod.snd heq.symm
      · cases hstep
  | cons hd tl ih =>
      rcases Relation.ReflTransGen.cases_head h with heq | ⟨mid, hstep, hrest⟩
      · simp at heq
      · cases hstep
        rw [List.foldl_cons]
        exact ih _ hrest

/-- Claim C6: SingleTrainer.train is deterministic — any two complete runs
of the single-worker training loop from identical initial parameters, data
order, and batch size end in identical final parameter vectors, both equal
to the sequential fold of the SGD step. -/
theorem singleTrainer_deterministic {δ : Type}
    (g : ParameterVector → List δ → ParameterVector) (lr : ℚ) (b : ℕ)
    (data : List δ) (θ₀ θ₁ θ₂ : ParameterVector)
    (h₁ : Relation.ReflTransGen (TrainStep g lr) (chunk b data, θ₀) ([], θ₁))
    (h₂ : Relation.ReflTransGen (TrainStep g lr) (chunk b data, θ₀) ([], θ₂)) :
    θ₁ = θ₂ ∧ θ₁ = singleTrainerTrain g lr b data θ₀ := by
  have e₁ := trainRun_final g lr _ _ _ h₁
  have e₂ := trainRun_final g lr _ _ _ h₂
  exact ⟨e₁.trans e₂.symm, e₁⟩

/-- A sample constant Gradient Computer capability. -/
def gConst : ParameterVector → List ℚ → ParameterVector := fun _ _ => [1]

theorem singleTrainer_deterministic_witness :
    sgdStep gConst 1 [2] [5] = sgdStep gConst 1 [2] [5] ∧
    sgdStep gConst 1 [2] [5] = singleTrainerTrain gConst 1 1 [5] [2] :=
  singleTrainer_deterministic gConst 1 1 [5] [2] _ _
    (Relation.ReflTransGen.single (TrainStep.step [5] [] [2]))
    (Relation.ReflTransGen.single (TrainStep.step [5] [] [2]))

/-- Modelled from the spec: the data-partitioning collaborator assigns each
record index of the training set (indices `0..m-1`) to worker `i`'s shard
by index modulo `numWorkers`; the partitioner sources are missing from the
repository. -/
def shard (numWorkers m i : ℕ) : Finset ℕ :=
  (Finset.range m).filter (fun j => j % numWorkers = i)

/-- Claim C7: for every numWorkers ≥ 1, the union of all worker shards
equals the full training set and any two distinct shards have empty
intersection. -/
theorem partition_cover_disjoint (n m : ℕ) (hn : 1 ≤ n) :
    (Finset.range n).biUnion (shard n m) = Finset.range m ∧
    ∀ i j, i < n → j < n → i ≠ j → Disjoint (shard n m i) (shard n m j) := by
  constructor
  · ext j
    simp only [Finset.mem_biUnion, Finset.mem_range, shard, Finset.mem_filter]
    constructor
    · rintro ⟨i, _, hj, _⟩
      exact hj
    · intro hj
      exact ⟨j % n, Nat.mod_lt _ hn, hj, rfl⟩
  · intro i j _ _ hij
    rw [Finset.disjoint_left]
    intro a ha hb
    simp only [shard, Finset.mem_filter, Finset.mem_range] at ha hb
    exact hij (ha.2.symm.trans hb.2)

theorem partition_cover_disjoint_witness :
    (Finset.range 3).biUnion (shard 3 7) = Finset.range 7 ∧
    ∀ i j, i < 3 → j < 3 → i ≠ j → Disjoint (shard 3 7 i) (shard 3 7 j) :=
  partition_cover_disjoint 3 7 (by decide)

/-- The notebook globals that `evaluate` reads and writes: the shared
`testSet` DataFrame and the most recently trained model. -/
structure NotebookGlobals (DF KM : Type) where
  testSet : DF
  trained_model : KM

/-- The notebook's `evaluate(model)` function (cell 25): it reselects the
test-set columns, builds a ModelPredictor from the global `trained_model`
(not from the `model` argument), predicts, applies the index transformer,
and scores with the evaluator; the external Spark/Keras calls are passed in
as pure capabilities.  It returns the updated globals (the function
reassigns the global `testSet`) together with the score. -/
def evaluate {DF KM : Type} (selectCols : DF → DF) (predict : KM → DF → DF)
    (indexTransform : DF → DF) (evalScore : DF → ℚ)
    (g : NotebookGlobals DF KM) (model : KM) : NotebookGlobals DF KM × ℚ :=
  let ts₁ := selectCols g.testSet
  let ts₂ := predict g.trained_model ts₁
  let ts₃ := indexTransform ts₂
  let score := evalScore ts₃
  (⟨ts₃, g.trained_model⟩, score)

/-- Claim C9: the notebook's `evaluate` ignores its `model` argument — for
any two arguments it returns the identical updated globals and score,
because the predictor is built from the global `trained_model` rather than
from the parameter. -/
theorem evaluate_ignores_model_argument {DF KM : Type}
    (selectCols : DF → DF) (predict : KM → DF → DF)
    (indexTransform : DF → DF) (evalScore : DF → ℚ)
    (g : NotebookGlobals DF KM) (m₁ m₂ : KM) :
    evaluate selectCols predict indexTransform evalScore g m₁ =
      evaluate selectCols predict indexTransform evalScore g m₂ := rfl

/-- The executor count derived in notebook cells 2–3: with `yarn` unset it
is 1; with `yarn` set it starts from the cluster's active-node count and is
reassigned to `max_num_executors` whenever the latter is larger. -/
def num_executors (yarn : Bool) (num_active_nodes max_num_executors : ℕ) : ℕ :=
  if yarn then
    if max_num_executors > num_active_nodes then max_num_executors
    else num_active_nodes
  else 1

/-- The per-executor core count set in notebook cell 2 (3 in both
branches). -/
def num_cores : ℕ := 3

/-- The worker count derived in notebook cell 4. -/
def num_workers (yarn : Bool) (num_active_nodes max_num_executors : ℕ) : ℕ :=
  num_executors yarn num_active_nodes max_num_executors * num_cores

/-- Claim C10: with yarn unset the worker count is exactly 3 (1 executor
times 3 cores); with yarn set the executor count equals the maximum of the
active-node count and max_num_executors — in particular, whenever
max_num_executors exceeds the cluster's active-node count, the executor
count is raised to max_num_executors rather than capped by the node
count. -/
theorem num_workers_derivation :
    (∀ a m, num_workers false a m = 3) ∧
    (∀ a m, num_executors true a m = Nat.max a m) ∧
    (∀ a m, a < m → num_executors true a m = m) := by
  have hval : ∀ a m, num_executors true a m = if a < m then m else a :=
    fun a m => rfl
  refine ⟨fun a m => rfl, fun a m => ?_, fun a m h => ?_⟩
  · rw [hval]
    have hmax : Nat.max a m = if a ≤ m then m else a := Nat.max_def
    rw [hmax]
    split <;> split <;> omega
  · rw [hval, if_pos h]

theorem num_workers_derivation_witness :
    num_workers false 0 0 = 3 ∧
    num_executors true 5 20 = Nat.max 5 20 ∧
    num_executors true 5 20 = 20 :=
  ⟨num_workers_derivation.1 0 0, num_workers_derivation.2.1 5 20,
    num_workers_derivation.2.2 5 20 (by decide)⟩

end DistKeras
